import Mathlib

set_option maxRecDepth 8192

/-!
Verification development for the Mermaid → Confluence rendering pipeline of
the `obsidian-to-confluence` plugin.

The TypeScript sources are shallowly embedded:
* external effects (the `mermaid-cli` subprocess together with the scratch-file
  round trip, the in-process `mermaid.render` call, `supportFunctions.uploadBuffer`,
  `SparkMD5.hash`) are parameters of the embedded functions — each renderer takes a
  `renderOne` oracle returning `some markup` on success and `none` on any per-item
  failure, and the name computation takes the hash function `md5`;
* a JavaScript `Map` (and the `Record` built by object spread) is an association
  list updated in place by `mapSet`, which mirrors `Map.set` / `{...m, [k]: v}`:
  an existing key keeps its position, a new key is appended;
* `Buffer` contents are kept as `String` (SVG text) or `List Nat` (PNG bytes);
* ADF documents are the inductive `Node` below with `type`, `attrs`, an optional
  `text` and optional `content`, exactly the shape the plugin reads and writes.
-/

namespace MC

/-- Character-list prefix test (used to model JavaScript `startsWith` and
literal regex matching). -/
def leadsWith : List Char → List Char → Bool
  | [], _ => true
  | _ :: _, [] => false
  | a :: as, b :: bs => a = b && leadsWith as bs

/-- JavaScript `String.prototype.startsWith` on embedded strings. -/
def jsStartsWith (pat s : String) : Bool :=
  leadsWith pat.data s.data

/-- Substring occurrence test (helper for stating that some marker is still
present in produced markup). -/
def hasSub (pat : List Char) : List Char → Bool
  | [] => leadsWith pat []
  | c :: cs => leadsWith pat (c :: cs) || hasSub pat cs

/-- `Map.set` / `{...m, [k]: v}`: update the value in place when the key is
already present, append the pair otherwise. -/
def mapSet {V : Type} (m : List (String × V)) (k : String) (v : V) :
    List (String × V) :=
  if k ∈ m.map Prod.fst then
    m.map (fun p => if p.1 = k then (k, v) else p)
  else
    m ++ [(k, v)]

/-- `Map.get` / property read: the value stored at the first (hence, for maps
built by `mapSet`, the only) occurrence of the key. -/
def lookupMap {V : Type} (m : List (String × V)) (k : String) : Option V :=
  (m.find? (fun p => p.1 == k)).map Prod.snd

/-- The key set of an embedded map. -/
def keysOf {V : Type} (m : List (String × V)) : Finset String :=
  (m.map Prod.fst).toFinset

/-- A batch loop that stores `val x` under `key x` for each item in order —
the common shape of every `captureMermaidCharts` implementation and of the
upload loop in `transform`. -/
def buildMap {α V : Type} (key : α → String) (val : α → V) (xs : List α) :
    List (String × V) :=
  xs.foldl (fun m x => mapSet m (key x) (val x)) []

/-- `ChartData` from `@markdown-confluence/lib`: the name under which the
rendered image is uploaded and the mermaid source text. -/
structure ChartData where
  name : String
  data : String
deriving DecidableEq, Repr

/-- The error-placeholder SVG of every SVG-producing renderer (template literal
interpolating the chart name). -/
def errorSvg (name : String) : String :=
  "<?xml version=\"1.0\" encoding=\"UTF-8\"?>\n" ++
  "<svg xmlns=\"http://www.w3.org/2000/svg\" width=\"400\" height=\"100\">\n" ++
  "\t<rect width=\"400\" height=\"100\" fill=\"#ffeeee\" stroke=\"#ff0000\"/>\n" ++
  "\t<text x=\"200\" y=\"50\" text-anchor=\"middle\" fill=\"#ff0000\">\n" ++
  "\t\tError rendering chart: " ++ name ++ "\n\t</text>\n</svg>"

/-- The error-placeholder PNG of the raster renderers: a fixed 1×1 fully
transparent pixel, byte for byte as in the source. -/
def errorPng : List Nat :=
  [0x89, 0x50, 0x4E, 0x47, 0x0D, 0x0A, 0x1A, 0x0A,
   0x00, 0x00, 0x00, 0x0D, 0x49, 0x48, 0x44, 0x52,
   0x00, 0x00, 0x00, 0x01, 0x00, 0x00, 0x00, 0x01,
   0x08, 0x06, 0x00, 0x00, 0x00, 0x1F, 0x15, 0xC4,
   0x89, 0x00, 0x00, 0x00, 0x0D, 0x49, 0x44, 0x41,
   0x54, 0x78, 0x9C, 0x62, 0x00, 0x00, 0x00, 0x00,
   0x00, 0x01, 0x00, 0x00, 0x05, 0x00, 0x01, 0x8D,
   0xB4, 0x19, 0x3A, 0x00, 0x00, 0x00, 0x00, 0x49,
   0x45, 0x4E, 0x44, 0xAE, 0x42, 0x60, 0x82]

/-- The XML declaration the renderers guarantee at the start of SVG output. -/
def xmlHeader : String := "<?xml version=\"1.0\" encoding=\"UTF-8\"?>"

/-! ### Entity decoding (`MermaidCLIRenderer`, entity-decoding revision)

`svgContent.replace(new RegExp(escapedEntity, 'g'), char)` is a single
left-to-right scan replacing every non-overlapping literal occurrence; the
replacement text is not rescanned within the same call.  The fuel argument is
the length of the scanned list, which one unit per examined character can
never exhaust. -/

/-- One global literal replacement pass (`String.replace` with a `g` regex of
an escaped literal). -/
def replAllAux (pat repl : List Char) : Nat → List Char → List Char
  | 0, s => s
  | _ + 1, [] => []
  | fuel + 1, c :: cs =>
    if pat ≠ [] && leadsWith pat (c :: cs) then
      repl ++ replAllAux pat repl fuel ((c :: cs).drop pat.length)
    else
      c :: replAllAux pat repl fuel cs

/-- Global literal replacement on strings. -/
def jsReplaceAll (pat repl s : String) : String :=
  ⟨replAllAux pat.data repl.data s.data.length s.data⟩

/-- `String.fromCharCode` truncates its argument to 16 bits.  (Lone UTF-16
surrogates, which Lean's `Char` cannot hold, do not occur in the markup this
pipeline handles.) -/
def charFromCode (n : Nat) : Char := Char.ofNat (n % 65536)

/-- Numeric value of a decimal digit run (`parseInt(dec, 10)`). -/
def digitsToNat (ds : List Char) : Nat :=
  ds.foldl (fun acc c => acc * 10 + (c.toNat - 48)) 0

/-- Hexadecimal digit value. -/
def hexDigitVal (c : Char) : Nat :=
  if c.isDigit then c.toNat - 48
  else if 'a' ≤ c ∧ c ≤ 'f' then c.toNat - 87
  else c.toNat - 55

/-- Numeric value of a hexadecimal digit run (`parseInt(hex, 16)`). -/
def hexToNat (ds : List Char) : Nat :=
  ds.foldl (fun acc c => acc * 16 + hexDigitVal c) 0

/-- `/&#(\d+);/g` pass: each decimal character reference becomes the character
with that code. -/
def decDecodeAux : Nat → List Char → List Char
  | 0, s => s
  | _ + 1, [] => []
  | fuel + 1, c :: cs =>
    if c = '&' then
      match cs with
      | '#' :: rest =>
        let ds := rest.takeWhile Char.isDigit
        match ds, rest.drop ds.length with
        | _ :: _, ';' :: rest' => charFromCode (digitsToNat ds) :: decDecodeAux fuel rest'
        | _, _ => c :: decDecodeAux fuel cs
      | _ => c :: decDecodeAux fuel cs
    else
      c :: decDecodeAux fuel cs

/-- `/&#x([0-9a-fA-F]+);/g` pass. -/
def hexDecodeAux : Nat → List Char → List Char
  | 0, s => s
  | _ + 1, [] => []
  | fuel + 1, c :: cs =>
    if c = '&' then
      match cs with
      | '#' :: 'x' :: rest =>
        let ds := rest.takeWhile (fun d => d.isDigit || ('a' ≤ d && d ≤ 'f') || ('A' ≤ d && d ≤ 'F'))
        match ds, rest.drop ds.length with
        | _ :: _, ';' :: rest' => charFromCode (hexToNat ds) :: hexDecodeAux fuel rest'
        | _, _ => c :: hexDecodeAux fuel cs
      | _ => c :: hexDecodeAux fuel cs
    else
      c :: hexDecodeAux fuel cs

/-- The fixed named-entity table, in the iteration order of the source object
literal (`Object.entries` preserves insertion order). -/
def htmlEntityMap : List (String × String) :=
  [("&gt;", ">"), ("&lt;", "<"), ("&amp;", "&"), ("&quot;", "\""),
   ("&apos;", "'"), ("&#39;", "'"), ("&#x27;", "'"), ("&#x2F;", "/"),
   ("&#x60;", "`"), ("&#x3D;", "="), ("&nbsp;", " "),
   ("&copy;", "©"), ("&reg;", "®"), ("&trade;", "™"),
   ("&euro;", "€"), ("&pound;", "£"), ("&yen;", "¥"), ("&cent;", "¢")]

/-- The full entity-decoding step of the CLI renderer: one global replacement
per named entity, in table order, then the decimal pass, then the
hexadecimal pass. -/
def decodeEntities (s : String) : String :=
  let named := htmlEntityMap.foldl (fun acc p => jsReplaceAll p.1 p.2 acc) s
  let dec : List Char := decDecodeAux named.data.length named.data
  ⟨hexDecodeAux dec.length dec⟩

/-! ### The external-process (CLI) renderer, entity-decoding revision

`captureMermaidCharts` writes each chart to a scratch file, runs `mermaid-cli`,
reads the output file, decodes entities, guarantees an XML declaration and
stores the bytes under the chart's original name; any per-item failure stores
the placeholder instead.  The subprocess/file round trip is the `renderOne`
oracle (`none` = the item failed somewhere in steps write/exec/read). -/

/-- Output post-processing of the successful CLI path. -/
def cliPostProcess (svgContent : String) : String :=
  let d := decodeEntities svgContent
  if jsStartsWith "<?xml" d then d else xmlHeader ++ "\n" ++ d

/-- What the CLI renderer stores for one chart: the post-processed markup on
success, the interpolated placeholder on failure. -/
def cliRenderOne (renderOne : ChartData → Option String) (chart : ChartData) : String :=
  match renderOne chart with
  | some svgContent => cliPostProcess svgContent
  | none => errorSvg chart.name

/-- `MermaidCLIRenderer.captureMermaidCharts` (entity-decoding revision): the
per-chart loop over the batch, keyed by the chart's original name. -/
def captureMermaidChartsCLI (renderOne : ChartData → Option String)
    (charts : List ChartData) : List (String × String) :=
  charts.foldl (fun acc chart => mapSet acc chart.name (cliRenderOne renderOne chart)) []

/-! ### The raster (PNG) renderer -/

/-- `chart.name.replace(/\.svg$/, '.png')`. -/
def pngName (s : String) : String :=
  if s.data.length ≥ 4 ∧ s.data.drop (s.data.length - 4) = ".svg".data then
    ⟨s.data.take (s.data.length - 4) ++ ".png".data⟩
  else s

/-- What the PNG renderer stores for one chart: the raw bytes read back from
the scratch file on success, the fixed 1×1 transparent PNG on failure. -/
def pngRenderOne (renderOne : ChartData → Option (List Nat)) (chart : ChartData) :
    List Nat :=
  match renderOne chart with
  | some pngBuffer => pngBuffer
  | none => errorPng

/-- `MermaidPNGRenderer.captureMermaidCharts`: both the success and the failure
path store under the extension-rewritten name. -/
def captureMermaidChartsPNG (renderOne : ChartData → Option (List Nat))
    (charts : List ChartData) : List (String × List Nat) :=
  charts.foldl
    (fun acc chart => mapSet acc (pngName chart.name) (pngRenderOne renderOne chart)) []

/-! ### The transform phase of `SVGMermaidRendererPlugin`

`transform` returns early on an empty batch; otherwise it calls the renderer
once and uploads every rendered entry.  The returned triple additionally
records whether the renderer was invoked and how many uploads happened, so that
non-invocation is expressible. -/

/-- `UploadedImageData` as declared locally in the plugin. -/
structure UploadedImageData where
  collection : String
  id : String
  width : Option Nat
  height : Option Nat
deriving DecidableEq, Repr

/-- `SVGMermaidRendererPlugin.transform`, with the renderer and
`supportFunctions.uploadBuffer` as oracles.  Components of the result: the
`imageMap` built by object spread, whether `captureMermaidCharts` was invoked,
and the number of `uploadBuffer` invocations. -/
def transform (renderer : List ChartData → List (String × String))
    (uploadBuffer : String → String → Option UploadedImageData)
    (mermaidNodesToUpload : List ChartData) :
    List (String × Option UploadedImageData) × Bool × Nat :=
  if mermaidNodesToUpload.length = 0 then
    ([], false, 0)
  else
    let mermaidChartsAsImages := renderer mermaidNodesToUpload
    (mermaidChartsAsImages.foldl
      (fun imageMap p => mapSet imageMap p.1 (uploadBuffer p.1 p.2)) [],
     true, mermaidChartsAsImages.length)

/-! ### Map lemmas -/

theorem keysOf_mapSet {V : Type} (m : List (String × V)) (k : String) (v : V) :
    keysOf (mapSet m k v) = insert k (keysOf m) := by
  unfold mapSet keysOf
  by_cases h : k ∈ m.map Prod.fst
  · rw [if_pos h]
    have hf : (Prod.fst ∘ fun (p : String × V) => if p.1 = k then (k, v) else p) =
        Prod.fst := by
      funext p
      by_cases hp : p.1 = k <;> simp [hp]
    rw [List.map_map, hf]
    exact (Finset.insert_eq_self.mpr (List.mem_toFinset.mpr h)).symm
  · rw [if_neg h, List.map_append]
    ext a
    simp [or_comm]

theorem keysOf_foldl {α V : Type} (key : α → String) (val : α → V) :
    ∀ (xs : List α) (m : List (String × V)),
      keysOf (xs.foldl (fun m x => mapSet m (key x) (val x)) m) =
        keysOf m ∪ (xs.map key).toFinset := by
  intro xs
  induction xs with
  | nil => intro m; simp [keysOf]
  | cons x xs ih =>
    intro m
    simp only [List.foldl_cons, List.map_cons, List.toFinset_cons]
    rw [ih, keysOf_mapSet]
    ext a
    simp
    try tauto

theorem keysOf_buildMap {α V : Type} (key : α → String) (val : α → V) (xs : List α) :
    keysOf (buildMap key val xs) = (xs.map key).toFinset := by
  unfold buildMap
  rw [keysOf_foldl]
  simp [keysOf]

theorem foldl_mapSet_eq_append {α V : Type} (key : α → String) (val : α → V) :
    ∀ (xs : List α) (m : List (String × V)), (xs.map key).Nodup →
      (∀ x ∈ xs, key x ∉ m.map Prod.fst) →
      xs.foldl (fun m x => mapSet m (key x) (val x)) m =
        m ++ xs.map (fun x => (key x, val x)) := by
  intro xs
  induction xs with
  | nil => intro m _ _; simp
  | cons x xs ih =>
    intro m hnd hdis
    simp only [List.map_cons, List.nodup_cons] at hnd
    have hx : key x ∉ m.map Prod.fst := hdis x (List.mem_cons_self x xs)
    have hstep : mapSet m (key x) (val x) = m ++ [(key x, val x)] := by
      unfold mapSet
      rw [if_neg hx]
    simp only [List.foldl_cons]
    rw [hstep, ih (m ++ [(key x, val x)]) hnd.2]
    · simp
    · intro y hy
      have hky : key y ≠ key x := by
        intro hk
        exact hnd.1 (hk ▸ List.mem_map_of_mem key hy)
      simp [hky, hdis y (List.mem_cons_of_mem x hy)]

theorem buildMap_eq_map {α V : Type} (key : α → String) (val : α → V)
    (xs : List α) (hnd : (xs.map key).Nodup) :
    buildMap key val xs = xs.map (fun x => (key x, val x)) := by
  unfold buildMap
  rw [foldl_mapSet_eq_append key val xs [] hnd (by simp)]
  simp

theorem lookup_pairs {α V : Type} (key : α → String) (val : α → V) :
    ∀ (xs : List α), (xs.map key).Nodup → ∀ c ∈ xs,
      lookupMap (xs.map fun x => (key x, val x)) (key c) = some (val c) := by
  intro xs
  induction xs with
  | nil => intro _ c hc; simp at hc
  | cons a as ih =>
    intro hnd c hc
    simp only [List.map_cons, List.nodup_cons] at hnd
    by_cases hac : key a = key c
    · have hca : c = a := by
        rcases List.mem_cons.mp hc with h | h
        · exact h
        · exact absurd (hac ▸ List.mem_map_of_mem key h) hnd.1
      subst hca
      simp [lookupMap, List.find?]
    · have hcas : c ∈ as := by
        rcases List.mem_cons.mp hc with h | h
        · exact absurd (h ▸ rfl) hac
        · exact h
      have hrec := ih hnd.2 c hcas
      have hb : (((key a, val a)).1 == key c) = false := by
        simpa using hac
      unfold lookupMap at hrec ⊢
      simp only [List.map_cons, List.find?_cons, hb]
      exact hrec

theorem lookup_buildMap {α V : Type} (key : α → String) (val : α → V)
    (xs : List α) (hnd : (xs.map key).Nodup) (c : α) (hc : c ∈ xs) :
    lookupMap (buildMap key val xs) (key c) = some (val c) := by
  rw [buildMap_eq_map key val xs hnd]
  exact lookup_pairs key val xs hnd c hc

theorem length_buildMap {α V : Type} (key : α → String) (val : α → V)
    (xs : List α) (hnd : (xs.map key).Nodup) :
    (buildMap key val xs).length = xs.length := by
  rw [buildMap_eq_map key val xs hnd, List.length_map]

/-! ### The ADF document tree, `extract` and `load`
(`SVGMermaidRendererPlugin`) -/

/-- An attribute value: the plugin writes strings, numbers, and — through
`width: mappedImage.width` when the asset has no width — `undefined`. -/
inductive AVal where
  | str (s : String)
  | num (n : Nat)
  | undef
deriving DecidableEq, Repr

/-- An ADF entity: `{type, attrs, text?, content?}`, the shape the plugin
reads and writes.  `content = none` is a node without a `content` property. -/
inductive Node where
  | mk (type : String) (attrs : List (String × AVal)) (text : Option String)
       (content : Option (List Node))
deriving Repr

def Node.type : Node → String
  | .mk t _ _ _ => t

def Node.attrs : Node → List (String × AVal)
  | .mk _ a _ _ => a

def Node.text : Node → Option String
  | .mk _ _ x _ => x

def Node.content : Node → Option (List Node)
  | .mk _ _ _ c => c

@[simp] theorem Node.type_mk (t a x c) : (Node.mk t a x c).type = t := rfl
@[simp] theorem Node.attrs_mk (t a x c) : (Node.mk t a x c).attrs = a := rfl
@[simp] theorem Node.text_mk (t a x c) : (Node.mk t a x c).text = x := rfl
@[simp] theorem Node.content_mk (t a x c) : (Node.mk t a x c).content = c := rfl

/-- `delete node.attrs[k]`. -/
def delAttr (attrs : List (String × AVal)) (k : String) : List (String × AVal) :=
  attrs.filter (fun p => p.1 != k)

/-- `node?.content?.at(0)?.text`. -/
def firstChildText (n : Node) : Option String :=
  match n.content with
  | some (c :: _) => c.text
  | _ => none

/-- `getMermaidFileNameSVG`: the (upload file name, source text) pair; an
absent text child falls back (`??`) to the documented placeholder chart.
`md5` stands for `SparkMD5.hash`. -/
def getMermaidFileNameSVG (md5 : String → String) (mermaidContent : Option String) :
    String × String :=
  let mermaidText := mermaidContent.getD "flowchart LR\nid1[Missing Chart]"
  ("RenderedMermaidChart-" ++ md5 mermaidText ++ ".svg", mermaidText)

/-- The name the load phase recomputes for a diagram node. -/
def mermaidFileName (md5 : String → String) (n : Node) : String :=
  (getMermaidFileNameSVG md5 (firstChildText n)).1

/-- `node.type == "codeBlock" && (node.attrs || \x7b\x7d)?.["language"] === "mermaid"`. -/
def isMermaidCodeBlock (node : Node) : Bool :=
  node.type == "codeBlock" &&
    (lookupMap node.attrs "language" == some (AVal.str "mermaid"))

mutual

/-- `filter` from `@atlaskit/adf-utils`: every entity of the tree, in document
order, satisfying the predicate. -/
def adfFilter (p : Node → Bool) : Node → List Node
  | Node.mk t a x c =>
    (if p (Node.mk t a x c) then [Node.mk t a x c] else []) ++
      (match c with
       | none => []
       | some l => adfFilterList p l)

def adfFilterList (p : Node → Bool) : List Node → List Node
  | [] => []
  | n :: ns => adfFilter p n ++ adfFilterList p ns

end

/-- `SVGMermaidRendererPlugin.extract`.  The source wraps the mapped array in
`new Set(...)`, but each element is a freshly allocated object and a JS `Set`
compares objects by reference, so the set never collapses anything and
`Array.from` hands the mapped list back unchanged. -/
def extract (md5 : String → String) (adf : Node) : List ChartData :=
  let mermaidNodes := adfFilter isMermaidCodeBlock adf
  mermaidNodes.map (fun node =>
    let mermaidDetails := getMermaidFileNameSVG md5 (firstChildText node)
    { name := mermaidDetails.1, data := mermaidDetails.2 })

/-- The single `media` child installed by the load phase, carrying the
uploaded asset's coordinates. -/
def mediaChild (mappedImage : UploadedImageData) : Node :=
  Node.mk "media"
    [("type", AVal.str "file"),
     ("collection", AVal.str mappedImage.collection),
     ("id", AVal.str mappedImage.id),
     ("width", match mappedImage.width with | some w => AVal.num w | none => AVal.undef),
     ("height", match mappedImage.height with | some h => AVal.num h | none => AVal.undef)]
    none none

/-- The `codeBlock` visitor of `SVGMermaidRendererPlugin.load`: `none` means
the callback returned `undefined` and the node stays as it is; `some n'` is
the mutated node (type `mediaSingle`, `layout` set, `content` replaced by the
single media child, `language` removed). -/
def visitCodeBlock (md5 : String → String)
    (imageMap : List (String × Option UploadedImageData)) (node : Node) :
    Option Node :=
  match node with
  | Node.mk ty attrs txt content =>
    if ty = "codeBlock" then
      if lookupMap attrs "language" = some (AVal.str "mermaid") then
        match firstChildText (Node.mk ty attrs txt content) with
        | none => none
        | some mermaidContent =>
          if mermaidContent = "" then none
          else
            match lookupMap imageMap
                (getMermaidFileNameSVG md5 (some mermaidContent)).1 with
            | none => none
            | some none => none
            | some (some mappedImage) =>
              some (Node.mk "mediaSingle"
                (delAttr (mapSet attrs "layout" (AVal.str "center")) "language")
                txt
                (match content with
                 | none => none
                 | some _ => some [mediaChild mappedImage]))
      else none
    else none

mutual

/-- One step of `traverse(afterAdf, { codeBlock: ... })`: apply the visitor
where it fires, recurse into the children otherwise.  (A replacement returned
by this visitor never contains further code blocks, so not recursing into it
matches the library behaviour on every tree the plugin produces.) -/
def loadNode (md5 : String → String)
    (imageMap : List (String × Option UploadedImageData)) : Node → Node
  | Node.mk t a x c =>
    (visitCodeBlock md5 imageMap (Node.mk t a x c)).getD
      (Node.mk t a x
        (match c with
         | none => none
         | some l => some (loadNodeList md5 imageMap l)))

def loadNodeList (md5 : String → String)
    (imageMap : List (String × Option UploadedImageData)) : List Node → List Node
  | [] => []
  | n :: ns => loadNode md5 imageMap n :: loadNodeList md5 imageMap ns

end

/-- `SVGMermaidRendererPlugin.load`. -/
def load (md5 : String → String) (adf : Node)
    (imageMap : List (String × Option UploadedImageData)) : Node :=
  loadNode md5 imageMap adf

/-! ### Association-list lemmas for `attrs` and `imageMap` -/

theorem lookup_replace {V : Type} (k : String) (v : V) :
    ∀ m : List (String × V),
      lookupMap (m.map (fun p => if p.1 = k then (k, v) else p)) k =
        if k ∈ m.map Prod.fst then some v else none := by
  intro m
  induction m with
  | nil => simp [lookupMap]
  | cons p ps ih =>
    by_cases hp : p.1 = k
    · simp [lookupMap, List.find?_cons, hp]
    · have hb : ((p.1 == k) : Bool) = false := by simpa using hp
      have hk : (k ∈ p.1 :: ps.map Prod.fst) ↔ (k ∈ ps.map Prod.fst) := by
        simp [Ne.symm hp]
      unfold lookupMap at ih ⊢
      simp only [List.map_cons, if_neg hp, List.find?_cons, hb, hk]
      exact ih

theorem lookup_append_single {V : Type} (k : String) (v : V) :
    ∀ m : List (String × V), k ∉ m.map Prod.fst →
      lookupMap (m ++ [(k, v)]) k = some v := by
  intro m
  induction m with
  | nil => simp [lookupMap, List.find?]
  | cons p ps ih =>
    intro h
    simp only [List.map_cons, List.mem_cons] at h
    push_neg at h
    have hb : ((p.1 == k) : Bool) = false := by
      simpa using fun hk => h.1 hk.symm
    simp only [List.cons_append, lookupMap, List.find?_cons, hb]
    exact ih h.2

theorem lookup_mapSet_self {V : Type} (m : List (String × V)) (k : String) (v : V) :
    lookupMap (mapSet m k v) k = some v := by
  unfold mapSet
  by_cases h : k ∈ m.map Prod.fst
  · rw [if_pos h, lookup_replace, if_pos h]
  · rw [if_neg h]
    exact lookup_append_single k v m h

theorem lookup_delAttr_self (l : List (String × AVal)) (k : String) :
    lookupMap (delAttr l k) k = none := by
  induction l with
  | nil => simp [delAttr, lookupMap]
  | cons p ps ih =>
    by_cases hp : p.1 = k
    · have hf : (p.1 != k) = false := by simp [hp]
      unfold delAttr at ih ⊢
      simp only [List.filter_cons, hf, Bool.false_eq_true, if_false]
      exact ih
    · have hf : (p.1 != k) = true := by simp [hp]
      have hb : ((p.1 == k) : Bool) = false := by simpa using hp
      unfold delAttr at ih ⊢
      unfold lookupMap at ih ⊢
      simp only [List.filter_cons, hf, if_true, List.find?_cons, hb]
      exact ih

theorem lookup_delAttr_ne (l : List (String × AVal)) (k k' : String) (h : k' ≠ k) :
    lookupMap (delAttr l k) k' = lookupMap l k' := by
  induction l with
  | nil => simp [delAttr]
  | cons p ps ih =>
    by_cases hp : p.1 = k
    · have hf : (p.1 != k) = false := by simp [hp]
      have hb : ((p.1 == k') : Bool) = false := by
        subst hp
        simpa using fun hk => h hk.symm
      unfold delAttr at ih ⊢
      unfold lookupMap at ih ⊢
      simp only [List.filter_cons, hf, Bool.false_eq_true, if_false,
        List.find?_cons, hb]
      exact ih
    · have hf : (p.1 != k) = true := by simp [hp]
      unfold delAttr at ih ⊢
      unfold lookupMap at ih ⊢
      by_cases hp' : p.1 = k'
      · have hb : ((p.1 == k') : Bool) = true := by simp [hp']
        simp [List.filter_cons, hf, List.find?_cons, hb]
      · have hb : ((p.1 == k') : Bool) = false := by simpa using hp'
        simp only [List.filter_cons, hf, if_true, List.find?_cons, hb]
        exact ih

/-! ### Fail-soft behaviour of the load phase -/

/-- When the recomputed name maps to an absent or null asset — and in every
other early-return case — the `codeBlock` visitor returns `undefined` and the
node is kept. -/
theorem visit_none_of_absent (md5 : String → String)
    (m : List (String × Option UploadedImageData)) (n : Node)
    (h : lookupMap m (mermaidFileName md5 n) = none ∨
         lookupMap m (mermaidFileName md5 n) = some none) :
    visitCodeBlock md5 m n = none := by
  cases n with
  | mk t a x c =>
    by_cases ht : t = "codeBlock"
    · subst ht
      simp only [visitCodeBlock]
      by_cases hl : lookupMap a "language" = some (AVal.str "mermaid")
      · cases hft : firstChildText (Node.mk "codeBlock" a x c) with
        | none => simp [hl, hft]
        | some s =>
          by_cases hs : s = ""
          · simp [hl, hft, hs]
          · have hname : (getMermaidFileNameSVG md5 (some s)).1 =
                mermaidFileName md5 (Node.mk "codeBlock" a x c) := by
              unfold mermaidFileName
              rw [hft]
            rcases h with h | h <;> simp [hl, hft, hs, hname, h]
      · simp [hl]
    · simp [visitCodeBlock, ht]

theorem visit_empty (md5 : String → String) (n : Node) :
    visitCodeBlock md5 [] n = none :=
  visit_none_of_absent md5 [] n (Or.inl rfl)

theorem loadNodeList_eq_map (md5 : String → String)
    (m : List (String × Option UploadedImageData)) (l : List Node) :
    loadNodeList md5 m l = l.map (loadNode md5 m) := by
  induction l with
  | nil => rfl
  | cons n ns ih => simp [loadNodeList, ih]

theorem loadNode_nil (md5 : String → String) :
    ∀ n : Node, loadNode md5 [] n = n := by
  have key : ∀ (k : Nat) (n : Node), sizeOf n ≤ k → loadNode md5 [] n = n := by
    intro k
    induction k with
    | zero =>
      intro n h
      cases n with
      | mk t a x c =>
        exact absurd h (by simp_arith)
    | succ k ih =>
      intro n h
      cases n with
      | mk t a x c =>
        cases c with
        | none => simp [loadNode, visit_empty]
        | some l =>
          simp only [loadNode, visit_empty, Option.getD_none, loadNodeList_eq_map]
          have hl : ∀ y ∈ l, loadNode md5 [] y = y := by
            intro y hy
            apply ih
            have h1 : sizeOf y < sizeOf l := List.sizeOf_lt_sizeOf_of_mem hy
            have h2 : sizeOf l < sizeOf (Node.mk t a x (some l)) := by simp_arith
            omega
          rw [List.map_congr_left hl]
          simp
  intro n
  exact key (sizeOf n) n le_rfl

/-! ### Concrete sample data for closed instances

`md5Stub` is a concrete stand-in for the external `SparkMD5.hash` in closed
statements; none of the settled properties depends on actual hash values. -/

def md5Stub : String → String := fun s => s

def textNode (s : String) : Node := Node.mk "text" [] (some s) none

def mermaidBlock (s : String) : Node :=
  Node.mk "codeBlock" [("language", AVal.str "mermaid")] none (some [textNode s])

def docNode (l : List Node) : Node := Node.mk "doc" [] none (some l)

/-- A document with two diagram blocks sharing identical source text. -/
def dupTree : Node := docNode [mermaidBlock "graph TD", mermaidBlock "graph TD"]

/-- A diagram block with no text child. -/
def emptyMermaidBlock : Node :=
  Node.mk "codeBlock" [("language", AVal.str "mermaid")] none none

/-- A document with one empty diagram block. -/
def emptyBlockTree : Node := docNode [emptyMermaidBlock]

/-- The uploaded asset of the spec's rewrite-success example. -/
def sampleAsset : UploadedImageData := ⟨"c1", "a1", some 100, some 50⟩

def sampleMap : List (String × Option UploadedImageData) :=
  [("RenderedMermaidChart-graph TD.svg", some sampleAsset)]

def charts3 : List ChartData :=
  [⟨"a.svg", "graph A"⟩, ⟨"b.svg", "graph B"⟩, ⟨"c.svg", "graph C"⟩]

/-- A render oracle failing exactly on the middle chart of `charts3`. -/
def oracle3 : ChartData → Option String :=
  fun c => if c.name = "b.svg" then none else some "<svg></svg>"

/-- A raster render oracle failing on every chart. -/
def oracleNonePng : ChartData → Option (List Nat) := fun _ => none

/-! ### Claim theorems: extraction, rendering coverage, transform, load -/

/-- C1 (amended): total coverage per variant. For every batch and every
outcome of the per-item rendering step, the external-process (SVG) renderer
returns a mapping whose key set is exactly the input name set, while the
raster renderer's key set is the input name set with the `.svg` extension
rewritten to `.png` — one key per input name image, fewer never. -/
theorem render_total_coverage_by_variant (renderSvg : ChartData → Option String)
    (renderPng : ChartData → Option (List Nat)) (charts : List ChartData) :
    keysOf (captureMermaidChartsCLI renderSvg charts) =
      (charts.map ChartData.name).toFinset ∧
    keysOf (captureMermaidChartsPNG renderPng charts) =
      (charts.map (fun c => pngName c.name)).toFinset := by
  constructor
  · have he : captureMermaidChartsCLI renderSvg charts =
        buildMap (fun c => c.name) (cliRenderOne renderSvg) charts := rfl
    rw [he, keysOf_buildMap]
  · have he : captureMermaidChartsPNG renderPng charts =
        buildMap (fun c => pngName c.name) (pngRenderOne renderPng) charts := rfl
    rw [he, keysOf_buildMap]

/-- C1 (counterexample): for the raster-producing variant the returned key set
is *not* the input name set — `chart.svg` comes back under `chart.png`. -/
theorem render_raster_key_counterexample :
    keysOf (captureMermaidChartsPNG oracleNonePng [⟨"chart.svg", "graph TD"⟩]) ≠
      ([(⟨"chart.svg", "graph TD"⟩ : ChartData)].map ChartData.name).toFinset := by
  decide

/-- C2: per-item fail-soft rendering. In any batch with pairwise distinct
names, an item on which the rendering step fails is stored as the fixed
error-placeholder image annotated with its original name, and the batch still
produces one entry per item. -/
theorem render_fail_soft_per_item (renderOne : ChartData → Option String)
    (charts : List ChartData) (c : ChartData)
    (hnd : (charts.map ChartData.name).Nodup) (hc : c ∈ charts)
    (hfail : renderOne c = none) :
    lookupMap (captureMermaidChartsCLI renderOne charts) c.name =
      some (errorSvg c.name) ∧
    (captureMermaidChartsCLI renderOne charts).length = charts.length := by
  have he : captureMermaidChartsCLI renderOne charts =
      buildMap (fun c => c.name) (cliRenderOne renderOne) charts := rfl
  constructor
  · rw [he]
    have h := lookup_buildMap (fun c => c.name) (cliRenderOne renderOne) charts hnd c hc
    simpa [cliRenderOne, hfail] using h
  · rw [he, length_buildMap _ _ _ hnd]

theorem render_fail_soft_per_item_witness :
    lookupMap (captureMermaidChartsCLI oracle3 charts3) "b.svg" =
      some (errorSvg "b.svg") ∧
    (captureMermaidChartsCLI oracle3 charts3).length = 3 := by
  have h := render_fail_soft_per_item oracle3 charts3 ⟨"b.svg", "graph B"⟩
    (by decide) (by decide) (by decide)
  exact h

/-- C3: extraction does not collapse value-equal duplicates. The `new Set` in
the source compares freshly allocated objects by reference, so a tree with two
diagram blocks of identical source text yields a ChartSet of size 2 whose two
entries are equal as values — not the size-1 set the spec requires. -/
theorem extract_keeps_value_duplicates (md5 : String → String) :
    extract md5 dupTree =
      [⟨"RenderedMermaidChart-" ++ md5 "graph TD" ++ ".svg", "graph TD"⟩,
       ⟨"RenderedMermaidChart-" ++ md5 "graph TD" ++ ".svg", "graph TD"⟩] ∧
    (extract md5 dupTree).length = 2 := by
  have h : extract md5 dupTree =
      [⟨"RenderedMermaidChart-" ++ md5 "graph TD" ++ ".svg", "graph TD"⟩,
       ⟨"RenderedMermaidChart-" ++ md5 "graph TD" ++ ".svg", "graph TD"⟩] := by
    simp [extract, adfFilter, adfFilterList, isMermaidCodeBlock, dupTree, docNode,
      mermaidBlock, textNode, firstChildText, getMermaidFileNameSVG, lookupMap,
      List.find?]
  exact ⟨h, by rw [h]; rfl⟩

/-- C4 (counterexample): a tree with one empty diagram block yields a ChartSet
of size 1 — the block is not skipped; it is extracted with the placeholder
chart source. -/
theorem empty_block_extracted_counterexample :
    extract md5Stub emptyBlockTree =
      [⟨"RenderedMermaidChart-flowchart LR\nid1[Missing Chart].svg",
        "flowchart LR\nid1[Missing Chart]"⟩] ∧
    (extract md5Stub emptyBlockTree).length ≠ 0 := by
  exact ⟨rfl, by decide⟩

/-- C4 (amended): a diagram code-block node with no text child is not skipped
by extraction; it contributes the entry built from the documented placeholder
chart text, and the single-empty-block tree yields a ChartSet of size 1. -/
theorem empty_block_added_with_placeholder (md5 : String → String) (t n : Node)
    (h1 : n ∈ adfFilter isMermaidCodeBlock t) (h2 : firstChildText n = none) :
    (⟨"RenderedMermaidChart-" ++ md5 "flowchart LR\nid1[Missing Chart]" ++ ".svg",
      "flowchart LR\nid1[Missing Chart]"⟩ : ChartData) ∈ extract md5 t ∧
    (extract md5 emptyBlockTree).length = 1 := by
  constructor
  · have hmem := List.mem_map_of_mem
      (fun node =>
        let mermaidDetails := getMermaidFileNameSVG md5 (firstChildText node)
        ({ name := mermaidDetails.1, data := mermaidDetails.2 } : ChartData)) h1
    unfold extract
    simpa [h2, getMermaidFileNameSVG] using hmem
  · rfl

theorem empty_block_added_with_placeholder_witness :
    ((⟨"RenderedMermaidChart-" ++ md5Stub "flowchart LR\nid1[Missing Chart]" ++ ".svg",
      "flowchart LR\nid1[Missing Chart]"⟩ : ChartData) ∈ extract md5Stub emptyBlockTree ∧
    (extract md5Stub emptyBlockTree).length = 1) :=
  empty_block_added_with_placeholder md5Stub emptyBlockTree emptyMermaidBlock
    (List.Mem.head _) rfl

/-- C5: rewrite fail-soft. For every image map, a diagram node whose
recomputed name maps to an absent or null asset is left unchanged by the load
visitor, and loading any tree with an empty image map returns the tree
unchanged. -/
theorem rewrite_fail_soft (md5 : String → String)
    (imageMap : List (String × Option UploadedImageData)) (n t : Node)
    (h : lookupMap imageMap (mermaidFileName md5 n) = none ∨
         lookupMap imageMap (mermaidFileName md5 n) = some none) :
    visitCodeBlock md5 imageMap n = none ∧ load md5 t [] = t :=
  ⟨visit_none_of_absent md5 imageMap n h, loadNode_nil md5 t⟩

theorem rewrite_fail_soft_witness :
    visitCodeBlock md5Stub [] (mermaidBlock "graph TD") = none ∧
    load md5Stub dupTree [] = dupTree :=
  rewrite_fail_soft md5Stub [] (mermaidBlock "graph TD") dupTree (Or.inl rfl)

/-- C6: rewrite success shape. A diagram code-block node whose recomputed name
maps to a non-null uploaded asset is rewritten to the `mediaSingle` wrapper
with `layout` set to `center`, the `language` marker removed, and its content
replaced by exactly one `media` child carrying the asset's collection, id and
optional width/height. -/
theorem rewrite_success_shape (md5 : String → String)
    (imageMap : List (String × Option UploadedImageData)) (n : Node)
    (mappedImage : UploadedImageData) (s : String)
    (hty : n.type = "codeBlock")
    (hlang : lookupMap n.attrs "language" = some (AVal.str "mermaid"))
    (hs : firstChildText n = some s) (hne : s ≠ "")
    (hmap : lookupMap imageMap (getMermaidFileNameSVG md5 (some s)).1 =
      some (some mappedImage)) :
    visitCodeBlock md5 imageMap n =
      some (Node.mk "mediaSingle"
        (delAttr (mapSet n.attrs "layout" (AVal.str "center")) "language")
        n.text (some [mediaChild mappedImage])) ∧
    lookupMap (delAttr (mapSet n.attrs "layout" (AVal.str "center")) "language")
      "layout" = some (AVal.str "center") ∧
    lookupMap (delAttr (mapSet n.attrs "layout" (AVal.str "center")) "language")
      "language" = none ∧
    lookupMap (mediaChild mappedImage).attrs "collection" =
      some (AVal.str mappedImage.collection) ∧
    lookupMap (mediaChild mappedImage).attrs "id" =
      some (AVal.str mappedImage.id) := by
  cases n with
  | mk t a x c =>
    simp only [Node.type_mk, Node.attrs_mk, Node.text_mk] at hty hlang ⊢
    subst hty
    refine ⟨?_, ?_, ?_, ?_, ?_⟩
    · cases c with
      | none => simp [firstChildText] at hs
      | some l =>
        cases l with
        | nil => simp [firstChildText] at hs
        | cons c0 rest =>
          simp only [firstChildText, Node.content_mk] at hs
          simp [visitCodeBlock, firstChildText, hlang, hs, hne, hmap]
    · rw [lookup_delAttr_ne _ _ _ (by decide)]
      exact lookup_mapSet_self a "layout" (AVal.str "center")
    · exact lookup_delAttr_self _ _
    · rfl
    · rfl

theorem rewrite_success_shape_witness :
    visitCodeBlock md5Stub sampleMap (mermaidBlock "graph TD") =
      some (Node.mk "mediaSingle"
        (delAttr (mapSet (mermaidBlock "graph TD").attrs "layout" (AVal.str "center"))
          "language")
        (mermaidBlock "graph TD").text (some [mediaChild sampleAsset])) ∧
    lookupMap (delAttr (mapSet (mermaidBlock "graph TD").attrs "layout"
        (AVal.str "center")) "language") "layout" = some (AVal.str "center") ∧
    lookupMap (delAttr (mapSet (mermaidBlock "graph TD").attrs "layout"
        (AVal.str "center")) "language") "language" = none ∧
    lookupMap (mediaChild sampleAsset).attrs "collection" =
      some (AVal.str sampleAsset.collection) ∧
    lookupMap (mediaChild sampleAsset).attrs "id" =
      some (AVal.str sampleAsset.id) :=
  rewrite_success_shape md5Stub sampleMap (mermaidBlock "graph TD") sampleAsset
    "graph TD" rfl rfl rfl (by decide) rfl

/-- C10: `transform` on an empty chart list returns the empty image map at
once — the renderer is not invoked (flag `false`) and no upload happens
(count `0`). -/
theorem transform_empty_short_circuit
    (renderer : List ChartData → List (String × String))
    (uploadBuffer : String → String → Option UploadedImageData) :
    transform renderer uploadBuffer [] = ([], false, 0) := rfl

/-! ### `convertColors` (`MermaidCLIRenderer`, JSDOM revision)

The three regex passes (`hsl(...)`, then `rgb(...)`, then `rgba(...)`) are
embedded as left-to-right scanners over the character list; each matcher
replays its regex literally (`\s*` whitespace runs, digit runs with an
optional fraction, the literal heads and separators).  JavaScript number
arithmetic inside `hslToHex` is modelled over `ℚ`; on the digit-only inputs
the regexes accept, every intermediate of the evaluated instances below is
exactly representable, so the rational and the double computation agree. -/

/-- JavaScript `\s` (the whitespace classes that can occur in this markup). -/
def isJsWs (c : Char) : Bool :=
  c = ' ' || c = '\t' || c = '\n' || c = '\r' || c = '\x0b' || c = '\x0c'

/-- `\s*`. -/
def dropWs (s : List Char) : List Char := s.dropWhile isJsWs

/-- A mandatory literal character. -/
def expectChar (c : Char) : List Char → Option (List Char)
  | x :: xs => if x = c then some xs else none
  | [] => none

/-- `(\d+)` with `parseInt(_, 10)`. -/
def parseNatNum (s : List Char) : Option (Nat × List Char) :=
  match s.takeWhile Char.isDigit with
  | [] => none
  | ds => some (digitsToNat ds, s.drop ds.length)

/-- Exact rational numbers as unreduced fractions with positive denominator.
They model the JavaScript float computation of `hslToHex`; on the digit-only
inputs the color regexes accept, all intermediates of the evaluated instances
in this file are exactly representable as doubles, so the exact and the float
computation agree.  (Unlike Mathlib's `ℚ`, this representation skips `gcd`
normalization, keeping every operation kernel-reducible.) -/
structure Frac where
  num : Int
  den : Nat
deriving DecidableEq, Repr

def Frac.ofNat (n : Nat) : Frac := ⟨n, 1⟩

def Frac.ofInt (i : Int) : Frac := ⟨i, 1⟩

def Frac.add (a b : Frac) : Frac := ⟨a.num * b.den + b.num * a.den, a.den * b.den⟩

def Frac.sub (a b : Frac) : Frac := ⟨a.num * b.den - b.num * a.den, a.den * b.den⟩

def Frac.mul (a b : Frac) : Frac := ⟨a.num * b.num, a.den * b.den⟩

/-- Division by a positive integer constant (the only division `hslToHex`
performs). -/
def Frac.divNat (a : Frac) (n : Nat) : Frac := ⟨a.num, a.den * n⟩

/-- Strict comparison by cross multiplication (denominators are positive). -/
def Frac.blt (a b : Frac) : Bool :=
  decide (a.num * (b.den : Int) < b.num * (a.den : Int))

/-- Floor (`Int.fdiv` floors since the denominator is positive). -/
def Frac.floor (a : Frac) : Int := Int.fdiv a.num a.den

/-- `Math.min`. -/
def fmin (a b : Frac) : Frac := if Frac.blt b a then b else a

/-- `Math.max`. -/
def fmax (a b : Frac) : Frac := if Frac.blt a b then b else a

/-- `(\d+(?:\.\d+)?)` with `parseFloat`: the dot is only consumed when at
least one digit follows it. -/
def parseQNum (s : List Char) : Option (Frac × List Char) :=
  match s.takeWhile Char.isDigit with
  | [] => none
  | ds =>
    match s.drop ds.length with
    | '.' :: r2 =>
      match r2.takeWhile Char.isDigit with
      | [] => some (Frac.ofNat (digitsToNat ds), s.drop ds.length)
      | fs => some (⟨digitsToNat ds * 10 ^ fs.length + digitsToNat fs, 10 ^ fs.length⟩,
          r2.drop fs.length)
    | r => some (Frac.ofNat (digitsToNat ds), r)

/-- `n.toString(16)` for a natural channel value. -/
def natToHex (n : Nat) : List Char := Nat.toDigits 16 n

/-- `.padStart(2, '0')`. -/
def padStart2 (s : List Char) : List Char :=
  if s.length < 2 then List.replicate (2 - s.length) '0' ++ s else s

/-- `Math.round` (half away from negative infinity, as in JavaScript). -/
def jsRound (q : Frac) : Int := (q.add ⟨1, 2⟩).floor

/-- `i.toString(16)` for a possibly negative rounded value. -/
def intToHex (i : ℤ) : List Char :=
  if i < 0 then '-' :: Nat.toDigits 16 i.natAbs else Nat.toDigits 16 i.natAbs

/-- The `hslToHex` helper.  `%` on the nonnegative operands produced here is
`x - 12·⌊x/12⌋`. -/
def hslToHex (h s l : Frac) : List Char :=
  let l' := l.divNat 100
  let a := (s.mul (fmin l' ((Frac.ofNat 1).sub l'))).divNat 100
  let f : Nat → List Char := fun n =>
    let x := (Frac.ofNat n).add (h.divNat 30)
    let k := x.sub ((Frac.ofNat 12).mul (Frac.ofInt (x.divNat 12).floor))
    let color := l'.sub (a.mul (fmax
      (fmin (k.sub (Frac.ofNat 3)) (fmin ((Frac.ofNat 9).sub k) (Frac.ofNat 1)))
      (Frac.ofInt (-1))))
    padStart2 (intToHex (jsRound ((Frac.ofNat 255).mul color)))
  '#' :: (f 0 ++ f 8 ++ f 4)

/-- The `rgbToHex` helper. -/
def rgbToHex (r g b : Nat) : List Char :=
  '#' :: (padStart2 (natToHex r) ++ padStart2 (natToHex g) ++ padStart2 (natToHex b))

/-- `/hsl\(\s*(\d+(?:\.\d+)?)\s*,\s*(\d+(?:\.\d+)?)%\s*,\s*(\d+(?:\.\d+)?)%\s*\)/`
at the head of the list. -/
def matchHsl (s : List Char) : Option ((Frac × Frac × Frac) × List Char) :=
  if leadsWith "hsl(".data s then do
    let (h, r1) ← parseQNum (dropWs (s.drop 4))
    let r2 ← expectChar ',' (dropWs r1)
    let (sv, r3) ← parseQNum (dropWs r2)
    let r4 ← expectChar '%' r3
    let r5 ← expectChar ',' (dropWs r4)
    let (l, r6) ← parseQNum (dropWs r5)
    let r7 ← expectChar '%' r6
    let r8 ← expectChar ')' (dropWs r7)
    some ((h, sv, l), r8)
  else none

/-- `/rgb\(\s*(\d+)\s*,\s*(\d+)\s*,\s*(\d+)\s*\)/` at the head of the list. -/
def matchRgb (s : List Char) : Option ((Nat × Nat × Nat) × List Char) :=
  if leadsWith "rgb(".data s then do
    let (r, r1) ← parseNatNum (dropWs (s.drop 4))
    let r2 ← expectChar ',' (dropWs r1)
    let (g, r3) ← parseNatNum (dropWs r2)
    let r4 ← expectChar ',' (dropWs r3)
    let (b, r5) ← parseNatNum (dropWs r4)
    let r6 ← expectChar ')' (dropWs r5)
    some ((r, g, b), r6)
  else none

/-- `/rgba\(\s*(\d+)\s*,\s*(\d+)\s*,\s*(\d+)\s*,\s*[\d.]+\s*\)/` at the head;
the alpha run is required but dropped. -/
def matchRgba (s : List Char) : Option ((Nat × Nat × Nat) × List Char) :=
  if leadsWith "rgba(".data s then do
    let (r, r1) ← parseNatNum (dropWs (s.drop 5))
    let r2 ← expectChar ',' (dropWs r1)
    let (g, r3) ← parseNatNum (dropWs r2)
    let r4 ← expectChar ',' (dropWs r3)
    let (b, r5) ← parseNatNum (dropWs r4)
    let r6 ← expectChar ',' (dropWs r5)
    let r7 := dropWs r6
    match r7.takeWhile (fun c => c.isDigit || c = '.') with
    | [] => none
    | as => do
      let r8 ← expectChar ')' (dropWs (r7.drop as.length))
      some ((r, g, b), r8)
  else none

def hslScanAux : Nat → List Char → List Char
  | 0, s => s
  | _ + 1, [] => []
  | fuel + 1, c :: cs =>
    match matchHsl (c :: cs) with
    | some ((h, sv, l), rest) => hslToHex h sv l ++ hslScanAux fuel rest
    | none => c :: hslScanAux fuel cs

def rgbScanAux : Nat → List Char → List Char
  | 0, s => s
  | _ + 1, [] => []
  | fuel + 1, c :: cs =>
    match matchRgb (c :: cs) with
    | some ((r, g, b), rest) => rgbToHex r g b ++ rgbScanAux fuel rest
    | none => c :: rgbScanAux fuel cs

def rgbaScanAux : Nat → List Char → List Char
  | 0, s => s
  | _ + 1, [] => []
  | fuel + 1, c :: cs =>
    match matchRgba (c :: cs) with
    | some ((r, g, b), rest) => rgbToHex r g b ++ rgbaScanAux fuel rest
    | none => c :: rgbaScanAux fuel cs

/-- `convertColors`: the `hsl()` pass, then the `rgb()` pass, then the
`rgba()` pass. -/
def convertColors (str : String) : String :=
  let s1 := hslScanAux str.data.length str.data
  let s2 := rgbScanAux s1.length s1
  ⟨rgbaScanAux s2.length s2⟩

/-! ### The embedded-library (in-process) renderer (`SVGMermaidRenderer`) -/

def lcEq (a b : Char) : Bool := a.toLower = b.toLower

def leadsWithCI : List Char → List Char → Bool
  | [], _ => true
  | _ :: _, [] => false
  | a :: as, b :: bs => lcEq a b && leadsWithCI as bs

def hasSubCI (pat : List Char) : List Char → Bool
  | [] => leadsWithCI pat []
  | c :: cs => leadsWithCI pat (c :: cs) || hasSubCI pat cs

/-- `/style="[^"]*background[^"]*"/i` at the head of the list: the literal
`style="`, a quote-free body containing `background` (case-insensitively), and
the closing quote. -/
def matchBgStyle (s : List Char) : Option (List Char) :=
  if leadsWithCI "style=\"".data s then
    let r := s.drop 7
    let body := r.takeWhile (fun c => c != '"')
    match r.drop body.length with
    | '"' :: rest => if hasSubCI "background".data body then some rest else none
    | _ => none
  else none

/-- The global background-style strip pass. -/
def bgScanAux : Nat → List Char → List Char
  | 0, s => s
  | _ + 1, [] => []
  | fuel + 1, c :: cs =>
    match matchBgStyle (c :: cs) with
    | some rest => "style=\"\"".data ++ bgScanAux fuel rest
    | none => c :: bgScanAux fuel cs

/-- `String.replace` with a non-global regex: first occurrence only. -/
def replaceFirst (pat repl : List Char) : List Char → List Char
  | [] => []
  | c :: cs =>
    if leadsWith pat (c :: cs) then repl ++ (c :: cs).drop pat.length
    else c :: replaceFirst pat repl cs

/-- The in-process renderer's markup cleanup: strip background styles, then
inject a transparent-background style on the first `<svg`. -/
def svgCleanup (svg : String) : String :=
  let s1 := bgScanAux svg.data.length svg.data
  ⟨replaceFirst "<svg".data "<svg style=\"background: transparent\"".data s1⟩

/-- What the in-process renderer stores for one chart: the XML declaration is
prepended unconditionally; on failure the same placeholder as the CLI
renderer. -/
def svgRenderOne (renderOne : ChartData → Option String) (chart : ChartData) :
    String :=
  match renderOne chart with
  | some svg => xmlHeader ++ "\n" ++ svgCleanup svg
  | none => errorSvg chart.name

/-- `SVGMermaidRenderer.captureMermaidCharts`: the per-chart loop, keyed by
the chart's original name, with `mermaid.render` as the oracle. -/
def captureMermaidChartsSVG (renderOne : ChartData → Option String)
    (charts : List ChartData) : List (String × String) :=
  charts.foldl (fun acc chart => mapSet acc chart.name (svgRenderOne renderOne chart)) []

/-! ### Claim theorems: color conversion, entity decoding, in-process renderer -/

/-- C7 (counterexample): `rgb(300,0,0)` is *not* left as literal text — it is
rewritten to the malformed seven-digit `#12c0000`. -/
theorem convertColors_out_of_range_counterexample :
    convertColors "rgb(300,0,0)" = "#12c0000" ∧
    convertColors "rgb(300,0,0)" ≠ "rgb(300,0,0)" :=
  ⟨rfl, by decide⟩

/-- C7 (amended): `convertColors` performs no range validation.  In-range
conversions behave as documented (`hsl(120,100%,50%) → #00ff00`,
`rgb(255,0,0) → #ff0000`, `rgba(0,0,255,0.5) → #0000ff` with the alpha
dropped), but an out-of-range channel is converted all the same, its hex
digits simply growing past two: `rgb(300,0,0) → #12c0000`. -/
theorem convertColors_no_range_validation :
    convertColors "hsl(120,100%,50%)" = "#00ff00" ∧
    convertColors "rgb(255,0,0)" = "#ff0000" ∧
    convertColors "rgba(0,0,255,0.5)" = "#0000ff" ∧
    convertColors "rgb(300,0,0)" = "#12c0000" :=
  ⟨by decide, by decide, by decide, by decide⟩

/-- C8 (counterexample): decoding *does* re-decode text produced by an earlier
substitution: the `&amp;` pass turns `&amp;#65;` into `&#65;`, and the later
decimal pass decodes that to `A` (similarly `&amp;quot;` ends as `"`). -/
theorem decodeEntities_redecodes_counterexample :
    decodeEntities "&amp;#65;" = "A" ∧
    decodeEntities "&amp;#65;" ≠ "&#65;" ∧
    decodeEntities "&amp;quot;" = "\"" :=
  ⟨rfl, by decide, rfl⟩

/-- C8 (amended): decoding applies the fixed named-entity table in its source
order, then decimal numeric references, then hexadecimal ones; each pass
rescans the whole current string, so a later pass can decode text produced by
an earlier substitution (`&amp;#65; → A`).  `&amp;lt;` still decodes to
`&lt;` only because the `&lt;` entry is applied before `&amp;` in the table
order; `&#65; → A` and `&#x41; → A` as documented. -/
theorem decodeEntities_pass_order_examples :
    decodeEntities "&amp;lt;" = "&lt;" ∧
    decodeEntities "&#65;" = "A" ∧
    decodeEntities "&#x41;" = "A" ∧
    decodeEntities "&amp;#65;" = "A" :=
  ⟨rfl, rfl, rfl, rfl⟩

/-- A rendered markup fragment still carrying an entity and an `hsl()` color. -/
def svgMarkup0 : String := "<svg>&amp;lt; hsl(120,100%,50%)</svg>"

/-- An in-process render oracle always producing `svgMarkup0`. -/
def oracle9 : ChartData → Option String := fun _ => some svgMarkup0

/-- C9 (counterexample): the embedded-library backend returns the markup with
the raw `&amp;lt;` entity and the `hsl()` color intact — its output is not the
EntityDecoder/ColorNormalizer-processed markup the external backend would
produce from the same input. -/
theorem svg_renderer_no_decode_counterexample :
    captureMermaidChartsSVG oracle9 [⟨"n.svg", "d"⟩] =
      [("n.svg",
        "<?xml version=\"1.0\" encoding=\"UTF-8\"?>\n<svg style=\"background: transparent\">&amp;lt; hsl(120,100%,50%)</svg>")] ∧
    hasSub "&amp;lt;".data
      "<?xml version=\"1.0\" encoding=\"UTF-8\"?>\n<svg style=\"background: transparent\">&amp;lt; hsl(120,100%,50%)</svg>".data = true ∧
    (xmlHeader ++ "\n" ++ convertColors (decodeEntities (svgCleanup svgMarkup0))) ≠
      "<?xml version=\"1.0\" encoding=\"UTF-8\"?>\n<svg style=\"background: transparent\">&amp;lt; hsl(120,100%,50%)</svg>" :=
  ⟨rfl, rfl, by decide⟩

/-- C9 (amended): the embedded-library backend keeps the per-item isolation
and placeholder contract and its output does begin with the XML declaration
(prepended unconditionally), but the only markup processing it applies is the
background-style cleanup — EntityDecoder and ColorNormalizer do not run. -/
theorem svg_renderer_output_shape (renderOne : ChartData → Option String)
    (charts : List ChartData) (c : ChartData) (svg : String)
    (hnd : (charts.map ChartData.name).Nodup) (hc : c ∈ charts)
    (hok : renderOne c = some svg) :
    lookupMap (captureMermaidChartsSVG renderOne charts) c.name =
      some (xmlHeader ++ "\n" ++ svgCleanup svg) ∧
    jsStartsWith "<?xml" (xmlHeader ++ "\n" ++ svgCleanup svg) = true := by
  constructor
  · have he : captureMermaidChartsSVG renderOne charts =
        buildMap (fun c => c.name) (svgRenderOne renderOne) charts := rfl
    rw [he]
    have h := lookup_buildMap (fun c => c.name) (svgRenderOne renderOne) charts hnd c hc
    simpa [svgRenderOne, hok] using h
  · rfl

theorem svg_renderer_output_shape_witness :
    lookupMap (captureMermaidChartsSVG oracle9 [⟨"n.svg", "d"⟩]) "n.svg" =
      some (xmlHeader ++ "\n" ++ svgCleanup svgMarkup0) ∧
    jsStartsWith "<?xml" (xmlHeader ++ "\n" ++ svgCleanup svgMarkup0) = true :=
  svg_renderer_output_shape oracle9 [⟨"n.svg", "d"⟩] ⟨"n.svg", "d"⟩ svgMarkup0
    (by decide) (by decide) rfl

end MC
